import Mathlib

/-!
Shallow embedding of the task-management API of dvx76/fastapi-tutorial.

The in-memory variant (src/les2/oefening1/main.py) defines the whole data
path in Python, so it is the primary embedding target; the two SQL-backed
variants (src/main.py, src/async_example/main.py) share the same handler
shape, with their WHERE clauses embedded as predicates over the enumerated
store.  Python strings are modelled as lists of Unicode code points.
-/

/-- A Python string, as its list of Unicode code points. -/
abbrev Str := List Nat

/-- Python str.lower on one code point, covering the ASCII uppercase range
and the Latin-1 uppercase range 0xC0 to 0xDE (excluding the multiplication
sign 0xD7), which Python maps to the corresponding lowercase letters. -/
def pyLowerChar (c : Nat) : Nat :=
  if 65 ≤ c ∧ c ≤ 90 then c + 32
  else if 192 ≤ c ∧ c ≤ 222 ∧ c ≠ 215 then c + 32
  else c

/-- Python str.lower, code point by code point. -/
def pyLower (s : Str) : Str := s.map pyLowerChar

/-- Does the needle match at the start of the haystack, comparing code
points with the supplied equivalence? -/
def prefixMatchWith (eq : Nat → Nat → Bool) : Str → Str → Bool
  | [], _ => true
  | _ :: _, [] => false
  | a :: as, b :: bs => eq a b && prefixMatchWith eq as bs

/-- Does the haystack contain the needle as a contiguous substring,
comparing code points with the supplied equivalence? -/
def containsWith (eq : Nat → Nat → Bool) (needle : Str) : Str → Bool
  | [] => prefixMatchWith eq needle []
  | b :: bs => prefixMatchWith eq needle (b :: bs) || containsWith eq needle bs

/-- Python substring membership: needle occurs in haystack. -/
def pyContains (needle hay : Str) : Bool :=
  containsWith (fun a b => a == b) needle hay

/-- SQLite default LIKE folds only the ASCII letters A to Z; all other
code points compare case-sensitively. -/
def likeFoldChar (c : Nat) : Nat :=
  if 65 ≤ c ∧ c ≤ 90 then c + 32 else c

/-- SQLite `hay LIKE '%' || needle || '%'` under the default (ASCII-only
case-insensitive) collation, for needles without wildcard characters. -/
def likeContains (needle hay : Str) : Bool :=
  containsWith (fun a b => likeFoldChar a == likeFoldChar b) needle hay

/-- The creation payload (class TaskCreate): validated title, optional
description, priority. -/
structure TaskCreate where
  title : Str
  description : Option Str
  priority : Int
deriving Repr, DecidableEq

/-- A stored task record (class TaskInternal): the creation fields plus
the store-assigned identifier and creation timestamp. -/
structure TaskInternal where
  task_id : Nat
  title : Str
  description : Option Str
  priority : Int
  created_at : Nat
deriving Repr, DecidableEq

/-- Precedence resolution between the explicit min_priority query
parameter and the cookie-sourced one, as written in list_tasks:
the cookie is consulted only when the query parameter is None. -/
def resolvedMin (min_priority cookie_min_priority : Option Int) : Option Int :=
  match min_priority, cookie_min_priority with
  | none, some c => some c
  | mp, _ => mp

/-- The priority-floor test applied by list_tasks when an effective
minimum priority is present. -/
def passesMin (mp : Option Int) (t : TaskInternal) : Bool :=
  match mp with
  | none => true
  | some p => decide (p ≤ t.priority)

/-- The title test applied by list_tasks: the Python guard `if query:` is
truthiness, so both an absent and an empty query leave the tasks
unfiltered; otherwise a lowercased substring check runs. -/
def passesQuery (query : Option Str) (t : TaskInternal) : Bool :=
  match query with
  | none => true
  | some q => if q = [] then true
      else pyContains (pyLower q) (pyLower t.title)

/-- GET /tasks of src/les2/oefening1/main.py: resolve the effective
minimum priority from the query parameter and the cookie, then apply the
priority floor and the case-insensitive title substring filter in turn. -/
def list_tasks (tasks : List TaskInternal) (min_priority : Option Int)
    (query : Option Str) (cookie_min_priority : Option Int) : List TaskInternal :=
  let mp := resolvedMin min_priority cookie_min_priority
  let results := match mp with
    | none => tasks
    | some p => tasks.filter (fun t => decide (p ≤ t.priority))
  match query with
  | none => results
  | some q => if q = [] then results
      else results.filter (fun t => pyContains (pyLower q) (pyLower t.title))

lemma list_tasks_eq_filter (tasks : List TaskInternal) (mp : Option Int)
    (q : Option Str) (c : Option Int) :
    list_tasks tasks mp q c =
      tasks.filter (fun t => passesMin (resolvedMin mp c) t && passesQuery q t) := by
  unfold list_tasks passesMin passesQuery
  rcases resolvedMin mp c with _ | p <;> rcases q with _ | s
  · simp
  · by_cases hs : s = [] <;> simp [hs]
  · simp
  · by_cases hs : s = [] <;> simp [hs, List.filter_filter, Bool.and_comm]

lemma mem_list_tasks (tasks : List TaskInternal) (mp : Option Int)
    (q : Option Str) (c : Option Int) (t : TaskInternal) :
    t ∈ list_tasks tasks mp q c ↔
      t ∈ tasks ∧ passesMin (resolvedMin mp c) t = true ∧ passesQuery q t = true := by
  rw [list_tasks_eq_filter, List.mem_filter, Bool.and_eq_true]

/-- The WHERE clause src/main.py line 164 adds to the SELECT for a present
query: lower(title) contains lower(query), a plain case-insensitive
substring match over the Latin-1 range modelled here. -/
def sqlQueryClause (q : Str) (t : TaskInternal) : Bool :=
  pyContains (pyLower q) (pyLower t.title)

/-- The WHERE clause src/async_example/main.py line 143 adds for a
present query.  There func.lower wraps the boolean result of
title.contains instead of the title, so the stored title is compared
unlowered; under the configured SQLite backend the LIKE produced by
contains folds only ASCII letters, and lower of the 0/1 match result
keeps its truth value, so the wrapper is a no-op. -/
def asyncQueryClause (q : Str) (t : TaskInternal) : Bool :=
  likeContains (pyLower q) t.title

/-- The update payload as model_dump(exclude_unset=True) sees it: one
entry per field of TaskUpdate the client explicitly set.  The nullable
description carries an optional value; explicitly null titles or
priorities (accepted by TaskUpdate but degenerate for the stored record)
are outside the model. -/
structure TaskUpdate where
  title : Option Str
  description : Option (Option Str)
  priority : Option Int
deriving DecidableEq

/-- model_copy(update=update_data) in PATCH /tasks: overwrite on a copy
of the stored record exactly the fields present in the payload. -/
def applyUpdate (existing : TaskInternal) (u : TaskUpdate) : TaskInternal :=
  { existing with
    title := u.title.getD existing.title
    description := u.description.getD existing.description
    priority := u.priority.getD existing.priority }

/-- TASKS_DB, a Python dict in insertion order. -/
abbrev TasksDB := List (Nat × TaskInternal)

def dbKeys (db : TasksDB) : List Nat := db.map Prod.fst

/-- Python dict lookup (TASKS_DB.get and TASKS_DB[k]). -/
def dbGet (db : TasksDB) (k : Nat) : Option TaskInternal :=
  (db.find? (fun p => p.1 == k)).map Prod.snd

/-- Python dict assignment TASKS_DB[k] = v: an existing key keeps its
position, a new key is appended. -/
def dbSet (db : TasksDB) (k : Nat) (v : TaskInternal) : TasksDB :=
  if db.any (fun p => p.1 == k) then
    db.map (fun p => if p.1 == k then (k, v) else p)
  else db ++ [(k, v)]

/-- max(TASKS_DB.keys(), default=0). -/
def maxKey (db : TasksDB) : Nat := (dbKeys db).foldr max 0

/-- POST /tasks of src/les2/oefening1/main.py: assign the next identifier,
build the internal record and store it.  The datetime.now timestamp is
passed in explicitly. -/
def create_task (db : TasksDB) (task : TaskCreate) (now : Nat) :
    TaskInternal × TasksDB :=
  let next_task_id := maxKey db + 1
  let new_task : TaskInternal :=
    { task_id := next_task_id, title := task.title,
      description := task.description, priority := task.priority,
      created_at := now }
  (new_task, dbSet db next_task_id new_task)

/-- Create a sequence of tasks in order, each payload with its
timestamp, threading the store. -/
def createSeq (payloads : List (TaskCreate × Nat)) (db : TasksDB) : TasksDB :=
  match payloads with
  | [] => db
  | p :: rest => createSeq rest (create_task db p.1 p.2).2

/-- GET /tasks/{task_id}: the stored record, or the 404 not-found
signal raised as HTTPException. -/
def get_task (db : TasksDB) (task_id : Nat) : Except Nat TaskInternal :=
  match dbGet db task_id with
  | some t => .ok t
  | none => .error 404

/-- PATCH /tasks/{task_id}: 404 on a lookup miss with the store
unchanged, otherwise merge the payload and write the result back. -/
def update_task (db : TasksDB) (task_id : Nat) (task_data : TaskUpdate) :
    Except Nat TaskInternal × TasksDB :=
  match dbGet db task_id with
  | none => (.error 404, db)
  | some stored_task =>
      let updated_task := applyUpdate stored_task task_data
      (.ok updated_task, dbSet db task_id updated_task)

/-- The constraint GET /tasks declares on min_priority: Query(ge=1),
with no upper bound. -/
def minPriorityValid (p : Int) : Bool := decide (1 ≤ p)

/-- The constraint GET /tasks declares on q: min_length=3. -/
def queryValid (s : Str) : Bool := decide (3 ≤ s.length)

/-- The min_priority cookie parameter declares no value constraint. -/
def cookieValid (_ : Int) : Bool := true

/-- The request layer for GET /tasks: parameters violating a declared
constraint are rejected with a 422 validation error before the filter
runs; otherwise the filter output is returned. -/
def handle_list_request (tasks : List TaskInternal) (mp : Option Int)
    (q : Option Str) (c : Option Int) : Except Nat (List TaskInternal) :=
  if mp.all minPriorityValid && q.all queryValid && c.all cookieValid then
    .ok (list_tasks tasks mp q c)
  else .error 422

/-- Fixture title: CAFE with an acute accent on the E, then a space and
the word menu, in code points. -/
def cafeTitle : Str := [67, 65, 70, 201, 32, 109, 101, 110, 117]

/-- Fixture query: cafe with an acute accent on the e, in code points. -/
def cafeQuery : Str := [99, 97, 102, 233]

/-- Fixture task carrying the accented title. -/
def cafeTask : TaskInternal :=
  { task_id := 1, title := cafeTitle, description := none, priority := 3,
    created_at := 0 }

/-- Fixture stored task for the update and lookup examples: title abc,
description d, priority 3. -/
def exTask : TaskInternal :=
  { task_id := 1, title := [97, 98, 99], description := some [100],
    priority := 3, created_at := 5 }

/-- Fixture payload setting only the description, to the word updated. -/
def exUpdate : TaskUpdate :=
  { title := none,
    description := some (some [117, 112, 100, 97, 116, 101, 100]),
    priority := none }

lemma mem_le_foldr_max (l : List Nat) (k : Nat) (h : k ∈ l) :
    k ≤ l.foldr max 0 := by
  induction l with
  | nil => cases h
  | cons a l ih =>
    simp only [List.foldr_cons]
    rcases List.mem_cons.mp h with rfl | h2
    · exact le_max_left _ _
    · exact le_trans (ih h2) (le_max_right _ _)

lemma foldr_max_le (l : List Nat) (b : Nat) (h : ∀ x ∈ l, x ≤ b) :
    l.foldr max b = b := by
  induction l with
  | nil => rfl
  | cons a l ih =>
    simp only [List.foldr_cons]
    rw [ih (fun x hx => h x (List.mem_cons_of_mem _ hx))]
    exact max_eq_right (h a (List.mem_cons_self _ _))

lemma foldr_max_range (n : Nat) : (List.range' 1 n).foldr max 0 = n := by
  induction n with
  | zero => rfl
  | succ n ih =>
    rw [List.range'_1_concat, List.foldr_append]
    simp only [List.foldr_cons, List.foldr_nil, Nat.max_zero]
    rw [foldr_max_le]
    · omega
    · intro x hx
      have hx2 := List.mem_range'_1.mp hx
      omega

lemma maxKey_fresh (db : TasksDB) :
    db.any (fun p => p.1 == maxKey db + 1) = false := by
  rw [List.any_eq_false]
  intro p hp
  simp only [beq_iff_eq]
  intro hk
  have h1 : p.1 ∈ dbKeys db := List.mem_map_of_mem _ hp
  have h2 : p.1 ≤ maxKey db := mem_le_foldr_max (dbKeys db) p.1 h1
  omega

lemma create_task_db (db : TasksDB) (t : TaskCreate) (now : Nat) :
    (create_task db t now).2 =
      db ++ [(maxKey db + 1, (create_task db t now).1)] := by
  unfold create_task dbSet
  simp [maxKey_fresh db]

lemma createSeq_keys (ps : List (TaskCreate × Nat)) :
    ∀ (db : TasksDB) (n : Nat), dbKeys db = List.range' 1 n →
      dbKeys (createSeq ps db) = List.range' 1 (n + ps.length) := by
  induction ps with
  | nil =>
    intro db n h
    simpa [createSeq] using h
  | cons p rest ih =>
    intro db n h
    have hmax : maxKey db = n := by
      unfold maxKey
      rw [h]
      exact foldr_max_range n
    have hkeys : dbKeys (create_task db p.1 p.2).2 = List.range' 1 (n + 1) := by
      rw [create_task_db]
      unfold dbKeys
      rw [List.map_append]
      have h1 : List.map Prod.fst db = List.range' 1 n := h
      rw [h1, hmax, List.range'_1_concat]
      simp
      omega
    have h2 := ih _ _ hkeys
    unfold createSeq
    rw [h2]
    congr 1
    simp only [List.length_cons]
    omega

lemma resolvedMin_some (P : Int) (c : Option Int) :
    resolvedMin (some P) c = some P := rfl

lemma handle_list_request_ok (tasks : List TaskInternal) (mp : Option Int)
    (q : Option Str) (c : Option Int)
    (h : (mp.all minPriorityValid && q.all queryValid && c.all cookieValid) = true) :
    handle_list_request tasks mp q c = .ok (list_tasks tasks mp q c) := by
  unfold handle_list_request
  rw [h]
  rfl

lemma handle_list_request_err (tasks : List TaskInternal) (mp : Option Int)
    (q : Option Str) (c : Option Int)
    (h : (mp.all minPriorityValid && q.all queryValid && c.all cookieValid) = false) :
    handle_list_request tasks mp q c = .error 422 := by
  unfold handle_list_request
  rw [h]
  rfl

/-- C1: with an explicit minimum priority P, a task appears in the output
of list_tasks exactly when it is in the input collection, its priority is
at least P, and it passes any active title query: the priority floor and
the substring filter compose as a conjunction. -/
theorem list_tasks_priority_floor_and_conjunction (tasks : List TaskInternal)
    (P : Int) (q : Option Str) (c : Option Int) (t : TaskInternal) :
    t ∈ list_tasks tasks (some P) q c ↔
      t ∈ tasks ∧ P ≤ t.priority ∧ passesQuery q t = true := by
  rw [mem_list_tasks, resolvedMin_some]
  simp [passesMin]

/-- C2: when the explicit min_priority parameter is absent, a present
cookie value becomes the effective minimum priority; when the explicit
parameter is present, the cookie value is ignored entirely. -/
theorem list_tasks_cookie_precedence (tasks : List TaskInternal)
    (q : Option Str) (cv : Int) :
    (list_tasks tasks none q (some cv) = list_tasks tasks (some cv) q none) ∧
    ∀ (m : Int) (c : Option Int),
      list_tasks tasks (some m) q c = list_tasks tasks (some m) q none := by
  refine ⟨rfl, fun m c => ?_⟩
  rcases c with _ | cv2 <;> rfl

/-- C3: the claim fails for the async variant.  At a task titled CAFE
(with an acute accent on the E) and the query cafe (accented e), the
title contains the query case-insensitively and the in-memory variant
returns the task, and so would the WHERE clause of src/main.py, but the
WHERE clause of src/async_example/main.py rejects it: applying lower to
the result of contains instead of the title leaves the match ASCII-only
case-insensitive. -/
theorem query_filter_async_divergence :
    pyContains (pyLower cafeQuery) (pyLower cafeTitle) = true ∧
    list_tasks [cafeTask] none (some cafeQuery) none = [cafeTask] ∧
    sqlQueryClause cafeQuery cafeTask = true ∧
    asyncQueryClause cafeQuery cafeTask = false := by
  refine ⟨rfl, by decide, rfl, rfl⟩

/-- C4: the patch merge overwrites on a copy of the record exactly the
fields present in the payload; absent fields keep their prior values, and
the identifier and creation timestamp never change. -/
theorem applyUpdate_frame (existing : TaskInternal) (u : TaskUpdate) :
    (applyUpdate existing u).task_id = existing.task_id ∧
    (applyUpdate existing u).created_at = existing.created_at ∧
    (u.title = none → (applyUpdate existing u).title = existing.title) ∧
    (∀ v, u.title = some v → (applyUpdate existing u).title = v) ∧
    (u.description = none →
      (applyUpdate existing u).description = existing.description) ∧
    (∀ v, u.description = some v → (applyUpdate existing u).description = v) ∧
    (u.priority = none → (applyUpdate existing u).priority = existing.priority) ∧
    (∀ v, u.priority = some v → (applyUpdate existing u).priority = v) := by
  refine ⟨rfl, rfl, ?_, ?_, ?_, ?_, ?_, ?_⟩ <;>
    first
      | (intro h; simp [applyUpdate, h])
      | (intro v h; simp [applyUpdate, h])

/-- C4 witness: updating the fixture task with a payload carrying only a
description changes the description and nothing else. -/
theorem applyUpdate_frame_witness :
    (applyUpdate exTask exUpdate).title = exTask.title ∧
    (applyUpdate exTask exUpdate).description =
      some [117, 112, 100, 97, 116, 101, 100] ∧
    (applyUpdate exTask exUpdate).priority = exTask.priority ∧
    (applyUpdate exTask exUpdate).task_id = exTask.task_id ∧
    (applyUpdate exTask exUpdate).created_at = exTask.created_at :=
  ⟨(applyUpdate_frame exTask exUpdate).2.2.1 rfl,
   (applyUpdate_frame exTask exUpdate).2.2.2.2.2.1 _ rfl,
   (applyUpdate_frame exTask exUpdate).2.2.2.2.2.2.1 rfl,
   (applyUpdate_frame exTask exUpdate).1,
   (applyUpdate_frame exTask exUpdate).2.1⟩

/-- C5: creation assigns the identifier max of the existing keys (default
zero) plus one, never reuses an existing identifier, appends the new
record leaving every stored entry untouched, and creating a sequence of
tasks from the empty store yields the identifiers one, two, three and so
on, the first task receiving identifier one. -/
theorem create_task_identifier_assignment :
    (∀ (db : TasksDB) (t : TaskCreate) (now : Nat),
        (create_task db t now).1.task_id = maxKey db + 1 ∧
        (create_task db t now).1.task_id ∉ dbKeys db ∧
        (create_task db t now).2 =
          db ++ [((create_task db t now).1.task_id, (create_task db t now).1)]) ∧
    ∀ ps : List (TaskCreate × Nat),
      dbKeys (createSeq ps []) = List.range' 1 ps.length := by
  constructor
  · intro db t now
    refine ⟨rfl, ?_, create_task_db db t now⟩
    intro hmem
    have h1 : maxKey db + 1 ≤ maxKey db :=
      mem_le_foldr_max (dbKeys db) (maxKey db + 1) hmem
    omega
  · intro ps
    simpa using createSeq_keys ps [] 0 rfl

/-- C6: for every choice of parameters the output of list_tasks is a
sublist of the input collection: insertion order is preserved and nothing
is sorted. -/
theorem list_tasks_preserves_order (tasks : List TaskInternal)
    (mp : Option Int) (q : Option Str) (c : Option Int) :
    (list_tasks tasks mp q c).Sublist tasks := by
  rw [list_tasks_eq_filter]
  exact List.filter_sublist tasks

/-- C7: filtering is idempotent: running list_tasks on its own output
with the same parameters returns that output unchanged. -/
theorem list_tasks_idempotent (tasks : List TaskInternal) (mp : Option Int)
    (q : Option Str) (c : Option Int) :
    list_tasks (list_tasks tasks mp q c) mp q c = list_tasks tasks mp q c := by
  rw [list_tasks_eq_filter tasks mp q c, list_tasks_eq_filter,
    List.filter_filter]
  simp only [Bool.and_self]

/-- C8 counterexample: the request layer does not enforce the claimed
upper bound of five: min_priority six is accepted and the filter runs,
and a cookie value of ninety-nine is accepted unvalidated. -/
theorem request_validation_counterexample :
    (5:Int) < 6 ∧
    handle_list_request [] (some 6) none none = .ok [] ∧
    handle_list_request [] none none (some 99) = .ok [] := by
  refine ⟨by norm_num, rfl, rfl⟩

/-- C8 amended: the declared constraints are min_priority at least one
with no upper bound and a query of length at least three when present;
the cookie value is not range-checked.  A request is answered with the
filter output when these hold and rejected with a 422 validation error
before the filter runs otherwise. -/
theorem request_validation_amended (tasks : List TaskInternal)
    (mp : Option Int) (q : Option Str) (c : Option Int) :
    (handle_list_request tasks mp q c = .ok (list_tasks tasks mp q c) ↔
      (∀ p ∈ mp, 1 ≤ p) ∧ ∀ s ∈ q, 3 ≤ s.length) ∧
    (handle_list_request tasks mp q c = .error 422 ↔
      ¬ ((∀ p ∈ mp, 1 ≤ p) ∧ ∀ s ∈ q, 3 ≤ s.length)) := by
  have hcond : (mp.all minPriorityValid && q.all queryValid &&
      c.all cookieValid) = true ↔
      (∀ p ∈ mp, 1 ≤ p) ∧ ∀ s ∈ q, 3 ≤ s.length := by
    rcases mp with _ | p <;> rcases q with _ | s <;> rcases c with _ | cv <;>
      simp [Option.all, minPriorityValid, queryValid, cookieValid]
  by_cases h : (mp.all minPriorityValid && q.all queryValid &&
      c.all cookieValid) = true
  · rw [handle_list_request_ok tasks mp q c h]
    have hA := hcond.mp h
    exact ⟨⟨fun _ => hA, fun _ => rfl⟩,
      ⟨fun habs => Except.noConfusion habs, fun hn => absurd hA hn⟩⟩
  · have hf : (mp.all minPriorityValid && q.all queryValid &&
        c.all cookieValid) = false := by
      revert h
      cases mp.all minPriorityValid && q.all queryValid &&
        c.all cookieValid <;> simp
    rw [handle_list_request_err tasks mp q c hf]
    have hA : ¬ ((∀ p ∈ mp, 1 ≤ p) ∧ ∀ s ∈ q, 3 ≤ s.length) :=
      fun hp => h (hcond.mpr hp)
    exact ⟨⟨fun habs => Except.noConfusion habs, fun hp => absurd hp hA⟩,
      ⟨fun _ => hA, fun _ => rfl⟩⟩

/-- C9: a lookup miss yields the 404 not-found signal from both the
single-task lookup and the patch operation, the patch leaving the store
unchanged; a lookup hit returns the stored task. -/
theorem lookup_miss_not_found (db : TasksDB) (task_id : Nat) :
    (dbGet db task_id = none →
      get_task db task_id = .error 404 ∧
      ∀ u : TaskUpdate, update_task db task_id u = (.error 404, db)) ∧
    ∀ t, dbGet db task_id = some t → get_task db task_id = .ok t := by
  constructor
  · intro h
    exact ⟨by simp [get_task, h], fun u => by simp [update_task, h]⟩
  · intro t h
    simp [get_task, h]

/-- C9 witness: with only the fixture task stored under identifier one,
identifier two misses with a 404 from both operations and an unchanged
store, while identifier one returns the fixture task. -/
theorem lookup_miss_not_found_witness :
    get_task [(1, exTask)] 2 = .error 404 ∧
    update_task [(1, exTask)] 2 exUpdate = (.error 404, [(1, exTask)]) ∧
    get_task [(1, exTask)] 1 = .ok exTask :=
  ⟨((lookup_miss_not_found [(1, exTask)] 2).1 rfl).1,
   ((lookup_miss_not_found [(1, exTask)] 2).1 rfl).2 exUpdate,
   (lookup_miss_not_found [(1, exTask)] 1).2 exTask rfl⟩

/-- C10: the truthiness guard on the query parameter treats an empty
query string as absent: listing with the empty query returns the same
result as listing with no query at all. -/
theorem list_tasks_empty_query_is_absent (tasks : List TaskInternal)
    (mp c : Option Int) :
    list_tasks tasks mp (some []) c = list_tasks tasks mp none c := by
  unfold list_tasks
  simp
